import Mathlib

/-!
Verification of the fscp data_message framing layer (src/include/fscp/data_message.hpp)
and the cryptopen pbkdf2 helpers, over a shallow embedding on byte lists.

Buffers are `List Nat` of byte values. Multi-byte integers are read in network
byte order (big endian), matching the ntohl/ntohs calls in the source. Functions
whose bodies are not part of the sources (only declared in the headers) are
modelled from the spec and say so in their doc comments.
-/

namespace Fscp

/-- Read of the byte (uint8_t) at offset i; an out-of-range read is modelled as 0,
with in-bounds side conditions tracked by separate predicates. -/
def get8 (buf : List Nat) (i : Nat) : Nat := buf.getD i 0

/-- ntohs of the uint16_t loaded at offset i (network byte order, big endian),
as in buffer_tools::get<uint16_t> followed by ntohs. -/
def get16 (buf : List Nat) (i : Nat) : Nat := 256 * get8 buf i + get8 buf (i + 1)

/-- ntohl of the uint32_t loaded at offset i (network byte order, big endian),
as in buffer_tools::get<sequence_number_type> followed by ntohl. -/
def get32 (buf : List Nat) (i : Nat) : Nat :=
  256 * (256 * (256 * get8 buf i + get8 buf (i + 1)) + get8 buf (i + 2)) + get8 buf (i + 3)

/-- sizeof(uint16_t) on the wire. -/
def sizeof_uint16 : Nat := 2

/-- sizeof(sequence_number_type): a 4-byte network-order counter (the accessor
uses ntohl, and the spec wire table gives it 4 bytes). -/
def sizeof_sequence_number_type : Nat := 4

/-- data_message::MIN_BODY_LENGTH, translated from the source:
sizeof(sequence_number_type) + sizeof(uint16_t) * 2. -/
def MIN_BODY_LENGTH : Nat := sizeof_sequence_number_type + sizeof_uint16 * 2

/-- The minimum body length according to the spec: the 4-byte sequence number
plus the three fixed 2-byte length fields (iv_len, ciphertext_len, hmac_len)
with zero-length iv, ciphertext and hmac. -/
def spec_min_body_length : Nat :=
  sizeof_sequence_number_type + sizeof_uint16 + sizeof_uint16 + sizeof_uint16

/-- data_message::sequence_number, translated from the source:
ntohl(buffer_tools::get<sequence_number_type>(payload(), 0)). -/
def sequence_number (buf : List Nat) : Nat := get32 buf 0

/-- data_message::iv_size, translated from the source:
ntohs(buffer_tools::get<uint16_t>(payload(), sizeof(sequence_number_type))). -/
def iv_size (buf : List Nat) : Nat := get16 buf sizeof_sequence_number_type

/-- data_message::iv, translated from the source: the view starting at
payload() + sizeof(uint16_t) + sizeof(sequence_number_type), of iv_size bytes. -/
def iv (buf : List Nat) : List Nat :=
  (buf.drop (sizeof_uint16 + sizeof_sequence_number_type)).take (iv_size buf)

/-- data_message::ciphertext_size, translated from the source:
ntohs(buffer_tools::get<uint16_t>(payload(), sizeof(sequence_number_type) + sizeof(uint16_t) + iv_size())). -/
def ciphertext_size (buf : List Nat) : Nat :=
  get16 buf (sizeof_sequence_number_type + sizeof_uint16 + iv_size buf)

/-- data_message::ciphertext, translated from the source: the view starting at
payload() + sizeof(uint16_t) + sizeof(sequence_number_type) + iv_size() + sizeof(uint16_t),
of ciphertext_size bytes. -/
def ciphertext (buf : List Nat) : List Nat :=
  (buf.drop (sizeof_uint16 + sizeof_sequence_number_type + iv_size buf + sizeof_uint16)).take
    (ciphertext_size buf)

/-- data_message::hmac_size, translated from the source:
ntohs(buffer_tools::get<uint16_t>(payload(), sizeof(sequence_number_type) + sizeof(uint16_t) + iv_size() + sizeof(uint16_t) + ciphertext_size())). -/
def hmac_size (buf : List Nat) : Nat :=
  get16 buf
    (sizeof_sequence_number_type + sizeof_uint16 + iv_size buf + sizeof_uint16 +
      ciphertext_size buf)

/-- data_message::hmac, translated from the source: the view starting at
payload() + sizeof(sequence_number_type) + sizeof(uint16_t) + iv_size() + sizeof(uint16_t) + ciphertext_size() + sizeof(uint16_t),
of hmac_size bytes. -/
def hmac (buf : List Nat) : List Nat :=
  (buf.drop
      (sizeof_sequence_number_type + sizeof_uint16 + iv_size buf + sizeof_uint16 +
        ciphertext_size buf + sizeof_uint16)).take
    (hmac_size buf)

/-- Offset of the iv field: after the sequence number and the iv_len field. -/
def iv_off : Nat := 6

/-- Offset of the ciphertext field of a given buffer: 8 + iv_size. -/
def ciphertext_off (buf : List Nat) : Nat := 8 + iv_size buf

/-- Offset of the hmac field of a given buffer: 10 + iv_size + ciphertext_size. -/
def hmac_off (buf : List Nat) : Nat := 10 + iv_size buf + ciphertext_size buf

/-- The possible failures of the framing layer (spec section 7 taxonomy). -/
inductive FrameError where
  | format_error
  | authentication_error
  | capacity_error
  | algorithm_unavailable
  deriving DecidableEq, Repr

/-- Modelled from the spec: the body of data_message::check_format is not part
of the sources (only its declaration is). Following spec section 4.2 it
validates, in field order: the buffer is at least the minimum body length;
each length field lies inside the buffer; and each of iv, ciphertext and hmac
fits entirely within the remaining buffer given its declared length. -/
def check_format (buf : List Nat) : Bool :=
  decide (spec_min_body_length ≤ buf.length) &&
  decide (iv_off + iv_size buf ≤ buf.length) &&
  decide (iv_off + iv_size buf + sizeof_uint16 ≤ buf.length) &&
  decide (ciphertext_off buf + ciphertext_size buf ≤ buf.length) &&
  decide (ciphertext_off buf + ciphertext_size buf + sizeof_uint16 ≤ buf.length) &&
  decide (hmac_off buf + hmac_size buf ≤ buf.length)

/-- A validated data message mapped on a buffer. The external envelope
(type, length) is out of scope per the spec; the buffer here is the body
returned by payload(). -/
structure DataMessage where
  body : List Nat
  deriving DecidableEq, Repr

/-- The data_message(const void* buf, size_t buf_len) constructor: it maps the
buffer and runs check_format; on violation it fails with a format error and
returns no object. -/
def data_message_mk (buf : List Nat) : Except FrameError DataMessage :=
  if check_format buf then .ok ⟨buf⟩ else .error .format_error

/-- Every read performed by the seven accessors is inside the buffer:
sequence_number reads bytes 0..3, iv_size bytes 4..5, iv the iv_size bytes from
offset 6, ciphertext_size the two bytes at 6 + iv_size, ciphertext its declared
bytes from 8 + iv_size, hmac_size the two bytes at 8 + iv_size + ciphertext_size,
and hmac its declared bytes from 10 + iv_size + ciphertext_size. -/
def reads_in_bounds (buf : List Nat) : Prop :=
  sizeof_sequence_number_type ≤ buf.length ∧
  iv_off ≤ buf.length ∧
  iv_off + iv_size buf ≤ buf.length ∧
  ciphertext_off buf ≤ buf.length ∧
  ciphertext_off buf + ciphertext_size buf ≤ buf.length ∧
  hmac_off buf ≤ buf.length ∧
  hmac_off buf + hmac_size buf ≤ buf.length

/-- C2 as the code computes it: the length gate buf_len < MIN_BODY_LENGTH with
the source's constant. -/
def min_length_gate (buf : List Nat) : Bool := decide (MIN_BODY_LENGTH ≤ buf.length)

/-- Spec-side layout of C3: the big-endian 4-byte integer at offset 0, written
with positional weights as the spec reads it. -/
def layout_sequence_number (buf : List Nat) : Nat :=
  get8 buf 0 * 16777216 + get8 buf 1 * 65536 + get8 buf 2 * 256 + get8 buf 3

/-- Spec-side layout of C3: the big-endian 2-byte integer at offset 4. -/
def layout_iv_size (buf : List Nat) : Nat := get8 buf 4 * 256 + get8 buf 5

/-- Spec-side layout of C3: the iv starts at offset 6. -/
def layout_iv (buf : List Nat) : List Nat := (buf.drop 6).take (layout_iv_size buf)

/-- Spec-side layout of C3: the big-endian 2-byte integer at offset 6 + iv_size. -/
def layout_ciphertext_size (buf : List Nat) : Nat :=
  get8 buf (6 + layout_iv_size buf) * 256 + get8 buf (6 + layout_iv_size buf + 1)

/-- Spec-side layout of C3: the ciphertext starts at offset 8 + iv_size. -/
def layout_ciphertext (buf : List Nat) : List Nat :=
  (buf.drop (8 + layout_iv_size buf)).take (layout_ciphertext_size buf)

/-- Spec-side layout of C3: the big-endian 2-byte integer at offset
8 + iv_size + ciphertext_size. -/
def layout_hmac_size (buf : List Nat) : Nat :=
  get8 buf (8 + layout_iv_size buf + layout_ciphertext_size buf) * 256 +
    get8 buf (8 + layout_iv_size buf + layout_ciphertext_size buf + 1)

/-- Spec-side layout of C3: the hmac starts at offset 10 + iv_size + ciphertext_size. -/
def layout_hmac (buf : List Nat) : List Nat :=
  (buf.drop (10 + layout_iv_size buf + layout_ciphertext_size buf)).take (layout_hmac_size buf)

/-- The iv data region of a buffer: offsets 6 up to 6 + iv_size. -/
def in_iv_region (buf : List Nat) (i : Nat) : Prop :=
  iv_off ≤ i ∧ i < iv_off + iv_size buf

/-- The ciphertext data region: offsets 8 + iv_size up to its declared end. -/
def in_ciphertext_region (buf : List Nat) (i : Nat) : Prop :=
  ciphertext_off buf ≤ i ∧ i < ciphertext_off buf + ciphertext_size buf

/-- The hmac data region: offsets 10 + iv_size + ciphertext_size up to its declared end. -/
def in_hmac_region (buf : List Nat) (i : Nat) : Prop :=
  hmac_off buf ≤ i ∧ i < hmac_off buf + hmac_size buf

/-- Flipping one bit b of the byte at offset i. -/
def flip_bit (buf : List Nat) (i b : Nat) : List Nat := buf.set i (get8 buf i ^^^ 2 ^ b)

/-- Modelled from the spec: the authentication tag truncated or zero-expanded to
the requested hmac size (tags may be truncated/expanded relative to the raw
digest size). -/
def adjust_tag (t : List Nat) (n : Nat) : List Nat := (t ++ List.replicate n 0).take n

/-- The sealed region iv_len..ciphertext_end: the bytes from offset 4 (the
iv_len field) through the end of the ciphertext. -/
def seal_region (buf : List Nat) : List Nat :=
  (buf.drop sizeof_sequence_number_type).take
    (sizeof_uint16 + iv_size buf + sizeof_uint16 + ciphertext_size buf)

/-- Modelled from the spec: the body of data_message::check_seal is not part of
the sources (only its declaration is). With a present digest algorithm it
recomputes the tag over iv_len..ciphertext_end with the seal key, adjusts it to
the requested hmac size, and succeeds exactly when it equals the stored hmac
bytes byte-for-byte. H abstracts the keyed digest primitive (an external
collaborator per the spec): H key data is the raw tag. -/
def check_seal (H : List Nat → List Nat → List Nat) (hmlen : Nat) (seal_key : List Nat)
    (m : DataMessage) : Bool :=
  decide (adjust_tag (H seal_key (seal_region m.body)) hmlen = hmac m.body)

/-- Modelled from the spec: the body of the non-template
data_message::get_cleartext is not part of the sources. It decrypts the
ciphertext with the cipher primitive D (external collaborator: D key iv ct is
the cleartext), the encryption key and the frame's iv. -/
def get_cleartext_raw (D : List Nat → List Nat → List Nat → List Nat)
    (enc_key : List Nat) (m : DataMessage) : List Nat :=
  D enc_key (iv m.body) (ciphertext m.body)

/-- The receive path of the spec's per-frame state machine
(RAW, FORMAT_CHECKED, SEALED_OK, DECRYPTED): parse, verify the seal, and only
then decrypt. The boolean records whether decryption was invoked. -/
def receive (H : List Nat → List Nat → List Nat) (hmlen : Nat) (seal_key : List Nat)
    (D : List Nat → List Nat → List Nat → List Nat) (enc_key : List Nat)
    (buf : List Nat) : Except FrameError (List Nat) × Bool :=
  match data_message_mk buf with
  | .error e => (.error e, false)
  | .ok m =>
    if check_seal H hmlen seal_key m then (.ok (get_cleartext_raw D enc_key m), true)
    else (.error .authentication_error, false)

/-- A 2-byte network-order (big-endian) encoding, as htons followed by a store. -/
def be16 (n : Nat) : List Nat := [n / 256 % 256, n % 256]

/-- A 4-byte network-order (big-endian) encoding, as htonl followed by a store. -/
def be32 (n : Nat) : List Nat := [n / 16777216 % 256, n / 65536 % 256, n / 256 % 256, n % 256]

/-- Modelled from the spec: the Data-subtype cleartext is channel_number
(2 bytes, network order) followed by the opaque payload bytes. -/
def data_cleartext (channel : Nat) (payload : List Nat) : List Nat :=
  be16 channel ++ payload

/-- The sealed wire record core: sequence_number, iv_len, iv, ciphertext_len,
ciphertext, then the trailing hmac_len and hmac bytes. -/
def frame_core (s : Nat) (ivv ct tail : List Nat) : List Nat :=
  be32 s ++ (be16 ivv.length ++ (ivv ++ (be16 ct.length ++ (ct ++ tail))))

/-- Modelled from the spec: the bodies of data_message::write and raw_write are
not part of the sources (only declarations). The frame is laid out as
sequence_number, iv_len, iv, ciphertext_len, ciphertext, where the ciphertext
is E enc_key iv cleartext (the cipher primitive E and the fresh-IV source are
external collaborators, so the iv is a parameter); when a digest algorithm is
present, hmac_len and the adjusted tag over iv_len..ciphertext_end are
appended, otherwise hmac_len = 0 is appended. -/
def raw_write_frame (E : List Nat → List Nat → List Nat → List Nat)
    (H : Option (List Nat → List Nat → List Nat)) (hmlen seq : Nat)
    (ivv cleartext seal_key enc_key : List Nat) : List Nat :=
  let ct := E enc_key ivv cleartext
  match H with
  | some Hf =>
      frame_core seq ivv ct
        (be16 hmlen ++
          adjust_tag (Hf seal_key (be16 ivv.length ++ (ivv ++ (be16 ct.length ++ ct)))) hmlen)
  | none => frame_core seq ivv ct (be16 0)

/-- The outcome of a write call: either the byte count from a size query (no
destination buffer given), or the bytes written into a sufficient destination. -/
inductive WriteOutcome where
  | size_query : Nat → WriteOutcome
  | written : List Nat → WriteOutcome
  deriving DecidableEq, Repr

/-- Modelled from the spec: data_message::write over an optional destination
capacity. With no destination buffer it returns the exact byte count and writes
nothing; with a destination smaller than the computed size it fails with a
capacity error and writes nothing (never a partial write); otherwise it writes
the whole frame. -/
def write (cap : Option Nat) (E : List Nat → List Nat → List Nat → List Nat)
    (H : Option (List Nat → List Nat → List Nat)) (hmlen seq : Nat)
    (ivv cleartext seal_key enc_key : List Nat) : Except FrameError WriteOutcome :=
  match cap with
  | none =>
      .ok (.size_query (raw_write_frame E H hmlen seq ivv cleartext seal_key enc_key).length)
  | some c =>
      if c < (raw_write_frame E H hmlen seq ivv cleartext seal_key enc_key).length then
        .error .capacity_error
      else .ok (.written (raw_write_frame E H hmlen seq ivv cleartext seal_key enc_key))

/-- One record of record_size bytes after another: the chunking loop shared by
the auxiliary-data parsers. -/
def split_records (r : Nat) : Nat → List Nat → List (List Nat)
  | 0, _ => []
  | k + 1, buf => buf.take r :: split_records r k (buf.drop r)

/-- Modelled from the spec: the body of data_message::parse_hash_list is not
part of the sources (only its declaration is). The input length must be an
exact multiple of the fixed digest record size; any nonzero remainder is a
malformed-auxiliary-data error (a format error here), never silent truncation;
on success the digests are returned in buffer order. -/
def parse_hash_list (record_size : Nat) (buf : List Nat) :
    Except FrameError (List (List Nat)) :=
  if buf.length % record_size == 0 then
    .ok (split_records record_size (buf.length / record_size) buf)
  else .error .format_error

/-- Modelled from the spec: the body of data_message::parse_contact_map is not
part of the sources (only its declaration is). The buffer is split into
fixed-size (digest, endpoint) records under the same exact-multiple rule, and
each record into its digest and endpoint parts. -/
def parse_contact_map (digest_size endpoint_size : Nat) (buf : List Nat) :
    Except FrameError (List (List Nat × List Nat)) :=
  if buf.length % (digest_size + endpoint_size) == 0 then
    .ok ((split_records (digest_size + endpoint_size)
            (buf.length / (digest_size + endpoint_size)) buf).map
          fun r2 => (r2.take digest_size, r2.drop digest_size))
  else .error .format_error

/-- The message digest algorithms relevant to the pbkdf2 helpers. -/
inductive MDAlg where
  | sha1
  | sha256
  | md5
  deriving DecidableEq, Repr

/-- cryptopen::hash::message_digest_size: the raw digest size in bytes of the
given algorithm. -/
def message_digest_size : MDAlg → Nat
  | .sha1 => 20
  | .sha256 => 32
  | .md5 => 16

/-- Modelled from the spec: the PBKDF2 primitive itself is an external
collaborator (OpenSSL); it is modelled as a fixed computable function of the
algorithm and the inputs that fills the whole output buffer. -/
def pbkdf2_bytes (md : MDAlg) (password salt : List Nat) (iter outlen : Nat) : List Nat :=
  (List.range outlen).map
    fun i => (password.sum + salt.sum + iter + i + 7 * message_digest_size md) % 256

/-- Modelled from the spec: the body of the non-template cryptopen::hash::pbkdf2
is not part of the sources (only its declaration and documentation are). When
the requested digest algorithm is unavailable in the build, it falls back to
the weaker SHA1 only if the strict-mode flag (NO_PBKDF2_FALLBACK) is not set;
with strict mode set, unavailability is a hard algorithm-unavailable error. On
success it returns the count of bytes written and the output buffer bytes. -/
def pbkdf2 (strict : Bool) (avail : MDAlg → Bool) (password salt : List Nat)
    (outbuflen : Nat) (md : MDAlg) (iter : Nat) :
    Except FrameError (Nat × List Nat) :=
  if avail md then .ok (outbuflen, pbkdf2_bytes md password salt iter outbuflen)
  else if strict then .error .algorithm_unavailable
  else .ok (outbuflen, pbkdf2_bytes .sha1 password salt iter outbuflen)

/-- Modelled from the spec: the non-template data_message::get_cleartext call
over an optional destination capacity: with a NULL buffer it returns the
expected size of the cleartext and writes nothing; with a buffer it reports the
count of bytes deciphered together with the bytes, failing atomically (capacity
error) when they do not fit. -/
def get_cleartext_call (D : List Nat → List Nat → List Nat → List Nat)
    (enc_key : List Nat) (m : DataMessage) (cap : Option Nat) :
    Except FrameError (Nat × List Nat) :=
  match cap with
  | none => .ok ((get_cleartext_raw D enc_key m).length, [])
  | some c =>
      if c < (get_cleartext_raw D enc_key m).length then .error .capacity_error
      else .ok ((get_cleartext_raw D enc_key m).length, get_cleartext_raw D enc_key m)

/-- Translated from the source template data_message::get_cleartext<T>
(src/include/fscp/data_message.hpp lines 328 to 336): a vector is sized by a
NULL-buffer size query, the message is deciphered into it, and the vector is
resized to the count of bytes actually deciphered. The vector contents after
the deciphering call are the written bytes followed by the untouched tail. -/
def get_cleartext_vec (D : List Nat → List Nat → List Nat → List Nat)
    (enc_key : List Nat) (m : DataMessage) : Except FrameError (List Nat) :=
  match get_cleartext_call D enc_key m none with
  | .error e => .error e
  | .ok (s, _) =>
    match get_cleartext_call D enc_key m (some s) with
    | .error e => .error e
    | .ok (n, bytes) => .ok ((bytes ++ List.replicate (s - n) 0).take n)

/-- Translated from the source template cryptopen::hash::pbkdf2<T>
(src/unnamed/part_000 lines 92 to 103): the result vector is sized to
message_digest_size(md), the underlying pbkdf2 call writes into it, and the
vector is returned without any resize. -/
def pbkdf2_vec (strict : Bool) (avail : MDAlg → Bool) (password salt : List Nat)
    (md : MDAlg) (iter : Nat) : Except FrameError (List Nat) :=
  match pbkdf2 strict avail password salt (message_digest_size md) md iter with
  | .error e => .error e
  | .ok (_, bytes) =>
      .ok ((bytes ++ List.replicate (message_digest_size md - bytes.length) 0).take
        (message_digest_size md))

theorem check_format_eq_true_iff (buf : List Nat) :
    check_format buf = true ↔
      spec_min_body_length ≤ buf.length ∧
      iv_off + iv_size buf ≤ buf.length ∧
      iv_off + iv_size buf + sizeof_uint16 ≤ buf.length ∧
      ciphertext_off buf + ciphertext_size buf ≤ buf.length ∧
      ciphertext_off buf + ciphertext_size buf + sizeof_uint16 ≤ buf.length ∧
      hmac_off buf + hmac_size buf ≤ buf.length := by
  simp [check_format, Bool.and_eq_true, and_assoc]

/-- C1. For every buffer, construction either fails with a format error or
yields an object on which all seven accessors read only bytes inside the
buffer; a buffer shorter than the minimum body length, or a declared
iv/ciphertext/hmac length extending any field past the buffer, is rejected at
construction, and no partially-valid object is returned. -/
theorem c1_construction_bounds (buf : List Nat) :
    (∀ m : DataMessage, data_message_mk buf = .ok m →
        m.body = buf ∧ reads_in_bounds m.body) ∧
    (buf.length < spec_min_body_length → data_message_mk buf = .error .format_error) ∧
    (buf.length < iv_off + iv_size buf → data_message_mk buf = .error .format_error) ∧
    (buf.length < ciphertext_off buf + ciphertext_size buf →
        data_message_mk buf = .error .format_error) ∧
    (buf.length < hmac_off buf + hmac_size buf →
        data_message_mk buf = .error .format_error) := by
  by_cases h : check_format buf = true
  · obtain ⟨h1, h2, h3, h4, h5, h6⟩ := (check_format_eq_true_iff buf).1 h
    refine ⟨?_, fun hlt => absurd hlt (not_lt.2 h1), fun hlt => absurd hlt (not_lt.2 h2),
      fun hlt => absurd hlt (not_lt.2 h4), fun hlt => absurd hlt (not_lt.2 h6)⟩
    intro m hm
    rw [data_message_mk, if_pos h] at hm
    cases hm
    refine ⟨rfl, ?_⟩
    simp only [reads_in_bounds, spec_min_body_length, sizeof_sequence_number_type,
      sizeof_uint16, iv_off, ciphertext_off, hmac_off] at h1 h2 h3 h4 h5 h6 ⊢
    omega
  · have h' : check_format buf = false := by simpa using h
    have hmk : data_message_mk buf = .error .format_error := by
      rw [data_message_mk, h']
      simp
    refine ⟨?_, fun _ => hmk, fun _ => hmk, fun _ => hmk, fun _ => hmk⟩
    intro m hm
    rw [hmk] at hm
    cases hm

/-- Witness for C1: a 10-byte all-zero body is accepted with all accessor reads
in bounds, and a 9-byte body is rejected with a format error. -/
theorem c1_construction_bounds_witness :
    reads_in_bounds (List.replicate 10 0) ∧
    data_message_mk (List.replicate 9 0) = .error .format_error :=
  ⟨((c1_construction_bounds (List.replicate 10 0)).1 ⟨List.replicate 10 0⟩ (by rfl)).2,
    (c1_construction_bounds (List.replicate 9 0)).2.1 (by decide)⟩

theorem mk_ok_iff (buf : List Nat) (m : DataMessage) :
    data_message_mk buf = .ok m ↔ check_format buf = true ∧ m.body = buf := by
  cases m with
  | mk b =>
    rw [data_message_mk]
    by_cases h : check_format buf = true
    · rw [if_pos h]
      constructor
      · intro hm
        cases hm
        exact ⟨h, rfl⟩
      · rintro ⟨-, rfl⟩
        rfl
    · rw [if_neg h]
      constructor
      · intro hm
        cases hm
      · rintro ⟨hc, -⟩
        exact absurd hc h

/-- C2. The source constant MIN_BODY_LENGTH is 8 — the 4-byte sequence number
plus only two 2-byte length fields — while the wire format's fixed skeleton
(and the spec's stated minimum) is 10 bytes: a 9-byte all-zero body passes the
code's minimum-length gate although even its mandatory hmac_len field lies past
the end of the buffer, and the spec-faithful check_format rejects it. -/
theorem c2_min_body_length_mismatch :
    MIN_BODY_LENGTH = 8 ∧
    spec_min_body_length = 10 ∧
    min_length_gate (List.replicate 9 0) = true ∧
    (List.replicate 9 0 : List Nat).length < hmac_off (List.replicate 9 0) ∧
    check_format (List.replicate 9 0) = false := by
  decide

theorem get8_congr (buf : List Nat) {i j : Nat} (h : i = j) : get8 buf i = get8 buf j := by
  rw [h]

theorem get16_congr (buf : List Nat) {i j : Nat} (h : i = j) : get16 buf i = get16 buf j := by
  rw [h]

theorem iv_size_eq_layout (buf : List Nat) : iv_size buf = layout_iv_size buf := by
  rw [iv_size, get16, layout_iv_size, sizeof_sequence_number_type]
  ring_nf

theorem sequence_number_eq_layout (buf : List Nat) :
    sequence_number buf = layout_sequence_number buf := by
  rw [sequence_number, get32, layout_sequence_number]
  norm_num
  ring

theorem ciphertext_size_eq_layout (buf : List Nat) :
    ciphertext_size buf = layout_ciphertext_size buf := by
  rw [ciphertext_size,
    get16_congr buf
      (show sizeof_sequence_number_type + sizeof_uint16 + iv_size buf =
          6 + layout_iv_size buf from by
        rw [iv_size_eq_layout, sizeof_sequence_number_type, sizeof_uint16]),
    get16, layout_ciphertext_size]
  ring

theorem hmac_size_eq_layout (buf : List Nat) : hmac_size buf = layout_hmac_size buf := by
  rw [hmac_size,
    get16_congr buf
      (show sizeof_sequence_number_type + sizeof_uint16 + iv_size buf + sizeof_uint16 +
            ciphertext_size buf =
          8 + layout_iv_size buf + layout_ciphertext_size buf from by
        rw [iv_size_eq_layout, ciphertext_size_eq_layout, sizeof_sequence_number_type,
          sizeof_uint16]
        omega),
    get16, layout_hmac_size]
  ring

theorem iv_eq_layout (buf : List Nat) : iv buf = layout_iv buf := by
  rw [iv, layout_iv, iv_size_eq_layout, sizeof_uint16, sizeof_sequence_number_type]

theorem ciphertext_eq_layout (buf : List Nat) : ciphertext buf = layout_ciphertext buf := by
  rw [ciphertext, layout_ciphertext, iv_size_eq_layout, ciphertext_size_eq_layout,
    show sizeof_uint16 + sizeof_sequence_number_type + layout_iv_size buf + sizeof_uint16 =
        8 + layout_iv_size buf from by
      rw [sizeof_uint16, sizeof_sequence_number_type]
      omega]

theorem hmac_eq_layout (buf : List Nat) : hmac buf = layout_hmac buf := by
  rw [hmac, layout_hmac, iv_size_eq_layout, ciphertext_size_eq_layout, hmac_size_eq_layout,
    show sizeof_sequence_number_type + sizeof_uint16 + layout_iv_size buf + sizeof_uint16 +
          layout_ciphertext_size buf + sizeof_uint16 =
        10 + layout_iv_size buf + layout_ciphertext_size buf from by
      rw [sizeof_sequence_number_type, sizeof_uint16]
      omega]

/-- C3. For every successfully constructed data_message, the accessors realize
the wire layout with chained offsets: sequence_number is the big-endian 4-byte
integer at offset 0, iv_size the big-endian 2-byte integer at offset 4, iv
starts at offset 6, ciphertext_size is at offset 6 + iv_size, ciphertext starts
at offset 8 + iv_size, hmac_size is at offset 8 + iv_size + ciphertext_size,
and hmac starts at offset 10 + iv_size + ciphertext_size. -/
theorem c3_accessors_realize_layout (buf : List Nat) (m : DataMessage)
    (h : data_message_mk buf = .ok m) :
    sequence_number m.body = layout_sequence_number buf ∧
    iv_size m.body = layout_iv_size buf ∧
    iv m.body = layout_iv buf ∧
    ciphertext_size m.body = layout_ciphertext_size buf ∧
    ciphertext m.body = layout_ciphertext buf ∧
    hmac_size m.body = layout_hmac_size buf ∧
    hmac m.body = layout_hmac buf := by
  obtain ⟨-, rfl⟩ := (mk_ok_iff buf m).1 h
  exact ⟨sequence_number_eq_layout _, iv_size_eq_layout _, iv_eq_layout _,
    ciphertext_size_eq_layout _, ciphertext_eq_layout _, hmac_size_eq_layout _,
    hmac_eq_layout _⟩

/-- Witness for C3 on a concrete 15-byte frame with iv_len 1, ciphertext_len 2
and hmac_len 2. -/
theorem c3_accessors_realize_layout_witness :
    sequence_number [0, 0, 0, 42, 0, 1, 9, 0, 2, 7, 8, 0, 2, 5, 6] = 42 ∧
    iv [0, 0, 0, 42, 0, 1, 9, 0, 2, 7, 8, 0, 2, 5, 6] = [9] ∧
    ciphertext [0, 0, 0, 42, 0, 1, 9, 0, 2, 7, 8, 0, 2, 5, 6] = [7, 8] ∧
    hmac [0, 0, 0, 42, 0, 1, 9, 0, 2, 7, 8, 0, 2, 5, 6] = [5, 6] := by
  have h := c3_accessors_realize_layout [0, 0, 0, 42, 0, 1, 9, 0, 2, 7, 8, 0, 2, 5, 6]
    ⟨[0, 0, 0, 42, 0, 1, 9, 0, 2, 7, 8, 0, 2, 5, 6]⟩ (by rfl)
  rw [show (⟨[0, 0, 0, 42, 0, 1, 9, 0, 2, 7, 8, 0, 2, 5, 6]⟩ : DataMessage).body =
      [0, 0, 0, 42, 0, 1, 9, 0, 2, 7, 8, 0, 2, 5, 6] from rfl] at h
  obtain ⟨h1, -, h3, -, h5, -, h7⟩ := h
  exact ⟨by rw [h1]; decide, by rw [h3]; decide, by rw [h5]; decide, by rw [h7]; decide⟩

theorem get8_eq_getElem (buf : List Nat) (i : Nat) (h : i < buf.length) :
    get8 buf i = buf[i] := by
  rw [get8, List.getD_eq_getElem?_getD, List.getElem?_eq_getElem h]
  rfl

theorem get8_set_ne (buf : List Nat) (i j v : Nat) (h : j ≠ i) :
    get8 (buf.set i v) j = get8 buf j := by
  rw [get8, get8, List.getD_eq_getElem?_getD, List.getD_eq_getElem?_getD,
    List.getElem?_set_ne (Ne.symm h)]

theorem get8_set_self (buf : List Nat) (i v : Nat) (h : i < buf.length) :
    get8 (buf.set i v) i = v := by
  rw [get8, List.getD_eq_getElem?_getD,
    List.getElem?_eq_getElem (show i < (buf.set i v).length by simpa using h)]
  simp

theorem get16_set_ne (buf : List Nat) (i o v : Nat) (h1 : i ≠ o) (h2 : i ≠ o + 1) :
    get16 (buf.set i v) o = get16 buf o := by
  rw [get16, get16, get8_set_ne buf i o v (Ne.symm h1), get8_set_ne buf i (o + 1) v (Ne.symm h2)]

theorem get8_view (xs : List Nat) (off n j : Nat) (hj : j < n) :
    get8 ((xs.drop off).take n) j = get8 xs (off + j) := by
  by_cases h : off + j < xs.length
  · rw [get8, get8, List.getD_eq_getElem?_getD, List.getD_eq_getElem?_getD,
      List.getElem?_eq_getElem
        (show j < ((xs.drop off).take n).length by
          simp only [List.length_take, List.length_drop]
          omega),
      List.getElem?_eq_getElem h]
    simp [List.getElem_take, List.getElem_drop]
  · rw [get8, get8, List.getD_eq_getElem?_getD, List.getD_eq_getElem?_getD,
      List.getElem?_eq_none
        (show ((xs.drop off).take n).length ≤ j by
          simp only [List.length_take, List.length_drop]
          omega),
      List.getElem?_eq_none (show xs.length ≤ off + j by omega)]

theorem take_drop_set_eq (buf : List Nat) (off n i v : Nat)
    (h : i < off ∨ off + n ≤ i) :
    ((buf.set i v).drop off).take n = (buf.drop off).take n := by
  apply List.ext_getElem
  · simp [List.length_take, List.length_drop, List.length_set]
  · intro j h1 h2
    have hj : j < n := by
      simp only [List.length_take, List.length_drop, List.length_set] at h1
      omega
    rw [List.getElem_take, List.getElem_drop, List.getElem_take, List.getElem_drop]
    exact List.getElem_set_ne (by omega) _

theorem xor_two_pow_ne (x b : Nat) : x ^^^ 2 ^ b ≠ x := by
  intro h
  have h2 : x ^^^ (x ^^^ 2 ^ b) = x ^^^ x := by rw [h]
  rw [← Nat.xor_assoc, Nat.xor_self, Nat.zero_xor] at h2
  have hp : 0 < 2 ^ b := Nat.pow_pos (by norm_num)
  omega

theorem take_drop_set_ne (buf : List Nat) (off n i v : Nat)
    (hoff : off ≤ i) (hin : i < off + n) (hlen : i < buf.length) (hv : v ≠ get8 buf i) :
    ((buf.set i v).drop off).take n ≠ (buf.drop off).take n := by
  intro heq
  have hd := congrArg (fun l => get8 l (i - off)) heq
  simp only at hd
  rw [get8_view _ off n (i - off) (by omega), get8_view _ off n (i - off) (by omega),
    show off + (i - off) = i from by omega, get8_set_self buf i v hlen] at hd
  exact hv hd

theorem iv_size_set (buf : List Nat) (i v : Nat) (h4 : i ≠ 4) (h5 : i ≠ 5) :
    iv_size (buf.set i v) = iv_size buf := by
  rw [iv_size, iv_size, sizeof_sequence_number_type]
  exact get16_set_ne buf i 4 v h4 h5

theorem ciphertext_size_set (buf : List Nat) (i v : Nat) (h4 : i ≠ 4) (h5 : i ≠ 5)
    (h6 : i ≠ 6 + iv_size buf) (h7 : i ≠ 7 + iv_size buf) :
    ciphertext_size (buf.set i v) = ciphertext_size buf := by
  rw [ciphertext_size, ciphertext_size, iv_size_set buf i v h4 h5]
  have ho : sizeof_sequence_number_type + sizeof_uint16 + iv_size buf = 6 + iv_size buf := by
    rw [sizeof_sequence_number_type, sizeof_uint16]
  rw [ho]
  exact get16_set_ne buf i (6 + iv_size buf) v h6 (by omega)

theorem hmac_size_set (buf : List Nat) (i v : Nat) (h4 : i ≠ 4) (h5 : i ≠ 5)
    (h6 : i ≠ 6 + iv_size buf) (h7 : i ≠ 7 + iv_size buf)
    (h8 : i ≠ 8 + iv_size buf + ciphertext_size buf)
    (h9 : i ≠ 9 + iv_size buf + ciphertext_size buf) :
    hmac_size (buf.set i v) = hmac_size buf := by
  rw [hmac_size, hmac_size, iv_size_set buf i v h4 h5, ciphertext_size_set buf i v h4 h5 h6 h7]
  have ho : sizeof_sequence_number_type + sizeof_uint16 + iv_size buf + sizeof_uint16 +
      ciphertext_size buf = 8 + iv_size buf + ciphertext_size buf := by
    rw [sizeof_sequence_number_type, sizeof_uint16]
    omega
  rw [ho]
  exact get16_set_ne buf i (8 + iv_size buf + ciphertext_size buf) v h8 (by omega)

theorem check_format_set (buf : List Nat) (i v : Nat)
    (hiv : iv_size (buf.set i v) = iv_size buf)
    (hct : ciphertext_size (buf.set i v) = ciphertext_size buf)
    (hhm : hmac_size (buf.set i v) = hmac_size buf) :
    check_format (buf.set i v) = check_format buf := by
  simp only [check_format, ciphertext_off, hmac_off, hiv, hct, hhm, List.length_set]

theorem hmac_view (buf : List Nat) :
    hmac buf = (buf.drop (hmac_off buf)).take (hmac_size buf) := by
  rw [hmac,
    show sizeof_sequence_number_type + sizeof_uint16 + iv_size buf + sizeof_uint16 +
        ciphertext_size buf + sizeof_uint16 = hmac_off buf from by
      rw [sizeof_sequence_number_type, sizeof_uint16, hmac_off]
      omega]

theorem seal_region_view (buf : List Nat) :
    seal_region buf = (buf.drop 4).take (4 + iv_size buf + ciphertext_size buf) := by
  rw [seal_region, sizeof_sequence_number_type, sizeof_uint16,
    show 2 + iv_size buf + 2 + ciphertext_size buf =
        4 + iv_size buf + ciphertext_size buf from by omega]

theorem flip_preserves_sizes (buf : List Nat) (i b : Nat)
    (h : in_iv_region buf i ∨ in_ciphertext_region buf i ∨ in_hmac_region buf i) :
    iv_size (flip_bit buf i b) = iv_size buf ∧
    ciphertext_size (flip_bit buf i b) = ciphertext_size buf ∧
    hmac_size (flip_bit buf i b) = hmac_size buf := by
  simp only [in_iv_region, in_ciphertext_region, in_hmac_region, iv_off, ciphertext_off,
    hmac_off] at h
  rw [flip_bit]
  exact ⟨iv_size_set buf i _ (by omega) (by omega),
    ciphertext_size_set buf i _ (by omega) (by omega) (by omega) (by omega),
    hmac_size_set buf i _ (by omega) (by omega) (by omega) (by omega) (by omega) (by omega)⟩

theorem flip_constructs (buf : List Nat) (i b : Nat)
    (h : in_iv_region buf i ∨ in_ciphertext_region buf i ∨ in_hmac_region buf i)
    (hok : check_format buf = true) :
    data_message_mk (flip_bit buf i b) = .ok ⟨flip_bit buf i b⟩ := by
  obtain ⟨h1, h2, h3⟩ := flip_preserves_sizes buf i b h
  rw [data_message_mk, if_pos]
  rw [flip_bit] at h1 h2 h3 ⊢
  rw [check_format_set buf i _ h1 h2 h3]
  exact hok

theorem flip_seal_region_eq (buf : List Nat) (i b : Nat)
    (h : in_hmac_region buf i)
    (hsz : iv_size (flip_bit buf i b) = iv_size buf)
    (hct : ciphertext_size (flip_bit buf i b) = ciphertext_size buf) :
    seal_region (flip_bit buf i b) = seal_region buf := by
  rw [seal_region_view, seal_region_view, hsz, hct, flip_bit]
  apply take_drop_set_eq
  right
  simp only [in_hmac_region, hmac_off] at h
  omega

theorem flip_hmac_ne (buf : List Nat) (i b : Nat)
    (h : in_hmac_region buf i) (hfmt : check_format buf = true)
    (hsz : iv_size (flip_bit buf i b) = iv_size buf)
    (hct : ciphertext_size (flip_bit buf i b) = ciphertext_size buf)
    (hhm : hmac_size (flip_bit buf i b) = hmac_size buf) :
    hmac (flip_bit buf i b) ≠ hmac buf := by
  rw [hmac_view, hmac_view, hmac_off, hsz, hct, hhm, flip_bit]
  obtain ⟨hlo, hhi⟩ := h
  have hb := (check_format_eq_true_iff buf).1 hfmt
  simp only [hmac_off] at hlo hhi
  apply take_drop_set_ne buf _ _ i _ hlo (by omega)
  · simp only [hmac_off] at hb
    omega
  · exact xor_two_pow_ne _ _

theorem flip_hmac_eq (buf : List Nat) (i b : Nat)
    (h : in_iv_region buf i ∨ in_ciphertext_region buf i)
    (hsz : iv_size (flip_bit buf i b) = iv_size buf)
    (hct : ciphertext_size (flip_bit buf i b) = ciphertext_size buf)
    (hhm : hmac_size (flip_bit buf i b) = hmac_size buf) :
    hmac (flip_bit buf i b) = hmac buf := by
  rw [hmac_view, hmac_view, hmac_off, hsz, hct, hhm, flip_bit]
  apply take_drop_set_eq
  left
  simp only [in_iv_region, in_ciphertext_region, iv_off, ciphertext_off] at h
  omega

/-- C4. With a present digest algorithm, check_seal succeeds exactly when the
recomputed tag over the iv_len..ciphertext region, adjusted to the requested
hmac size, equals the stored hmac byte-for-byte; flipping any single bit of the
hmac region of a valid authenticated frame makes check_seal fail, flipping any
single bit of the iv or ciphertext region (or changing the seal key) makes it
fail whenever the keyed digest primitive distinguishes the altered input, and
after any such failure the receive path reports an authentication error without
ever invoking decryption. -/
theorem c4_seal_verification (H : List Nat → List Nat → List Nat)
    (D : List Nat → List Nat → List Nat → List Nat)
    (hmlen : Nat) (seal_key enc_key buf : List Nat) (m : DataMessage)
    (hmk : data_message_mk buf = .ok m) :
    (check_seal H hmlen seal_key m = true ↔
      adjust_tag (H seal_key (seal_region buf)) hmlen = hmac buf) ∧
    (∀ i b, in_hmac_region buf i → b < 8 → check_seal H hmlen seal_key m = true →
      data_message_mk (flip_bit buf i b) = .ok ⟨flip_bit buf i b⟩ ∧
      check_seal H hmlen seal_key ⟨flip_bit buf i b⟩ = false ∧
      receive H hmlen seal_key D enc_key (flip_bit buf i b) =
        (.error .authentication_error, false)) ∧
    (∀ i b, in_iv_region buf i ∨ in_ciphertext_region buf i → b < 8 →
      adjust_tag (H seal_key (seal_region (flip_bit buf i b))) hmlen ≠
        adjust_tag (H seal_key (seal_region buf)) hmlen →
      check_seal H hmlen seal_key m = true →
      data_message_mk (flip_bit buf i b) = .ok ⟨flip_bit buf i b⟩ ∧
      check_seal H hmlen seal_key ⟨flip_bit buf i b⟩ = false ∧
      receive H hmlen seal_key D enc_key (flip_bit buf i b) =
        (.error .authentication_error, false)) ∧
    (∀ key2 : List Nat,
      adjust_tag (H key2 (seal_region buf)) hmlen ≠
        adjust_tag (H seal_key (seal_region buf)) hmlen →
      check_seal H hmlen seal_key m = true →
      check_seal H hmlen key2 m = false ∧
      receive H hmlen key2 D enc_key buf = (.error .authentication_error, false)) := by
  obtain ⟨hfmt, hbody⟩ := (mk_ok_iff buf m).1 hmk
  have hrecv : ∀ (H2 : List Nat → List Nat → List Nat) (k2 b2 : List Nat)
      (m2 : DataMessage), data_message_mk b2 = .ok m2 →
      check_seal H2 hmlen k2 m2 = false →
      receive H2 hmlen k2 D enc_key b2 = (.error .authentication_error, false) := by
    intro H2 k2 b2 m2 hmk2 hcs
    rw [receive, hmk2]
    simp only [hcs, Bool.false_eq_true, if_false]
  refine ⟨?_, ?_, ?_, ?_⟩
  · rw [check_seal, hbody, decide_eq_true_eq]
  · intro i b hreg hb hcs
    obtain ⟨hsz, hct, hhm⟩ := flip_preserves_sizes buf i b (Or.inr (Or.inr hreg))
    have hmk2 := flip_constructs buf i b (Or.inr (Or.inr hreg)) hfmt
    have hcs2 : check_seal H hmlen seal_key ⟨flip_bit buf i b⟩ = false := by
      rw [check_seal, decide_eq_false_iff_not]
      intro heq
      rw [show DataMessage.body ⟨flip_bit buf i b⟩ = flip_bit buf i b from rfl,
        flip_seal_region_eq buf i b hreg hsz hct] at heq
      rw [check_seal, hbody, decide_eq_true_eq] at hcs
      exact flip_hmac_ne buf i b hreg hfmt hsz hct hhm (heq.symm.trans hcs)
    exact ⟨hmk2, hcs2, hrecv H seal_key _ _ hmk2 hcs2⟩
  · intro i b hreg hb htag hcs
    obtain ⟨hsz, hct, hhm⟩ := flip_preserves_sizes buf i b
      (hreg.elim Or.inl fun h2 => Or.inr (Or.inl h2))
    have hmk2 := flip_constructs buf i b (hreg.elim Or.inl fun h2 => Or.inr (Or.inl h2)) hfmt
    have hcs2 : check_seal H hmlen seal_key ⟨flip_bit buf i b⟩ = false := by
      rw [check_seal, decide_eq_false_iff_not]
      intro heq
      rw [show DataMessage.body ⟨flip_bit buf i b⟩ = flip_bit buf i b from rfl,
        flip_hmac_eq buf i b hreg hsz hct hhm] at heq
      rw [check_seal, hbody, decide_eq_true_eq] at hcs
      exact htag (heq.trans hcs.symm)
    exact ⟨hmk2, hcs2, hrecv H seal_key _ _ hmk2 hcs2⟩
  · intro key2 htag hcs
    have hcs2 : check_seal H hmlen key2 m = false := by
      rw [check_seal, hbody, decide_eq_false_iff_not]
      intro heq
      rw [check_seal, hbody, decide_eq_true_eq] at hcs
      exact htag (heq.trans hcs.symm)
    exact ⟨hcs2, hrecv H key2 _ _ hmk hcs2⟩

/-- Witness for C4 on a concrete 14-byte authenticated frame, a sum-based stand-in
for the keyed digest, and the identity stand-in for the cipher: the seal checks;
flipping a bit of the hmac byte (offset 13) or of the iv byte (offset 6), or
changing the seal key, makes it fail and the receive path reports an
authentication error without decrypting. -/
theorem c4_seal_verification_witness :
    check_seal (fun k d => [(k.sum + d.sum) % 256]) 1 [5]
      ⟨[0, 0, 0, 42, 0, 1, 9, 0, 2, 7, 8, 0, 1, 32]⟩ = true ∧
    check_seal (fun k d => [(k.sum + d.sum) % 256]) 1 [5]
      ⟨flip_bit [0, 0, 0, 42, 0, 1, 9, 0, 2, 7, 8, 0, 1, 32] 13 0⟩ = false ∧
    receive (fun k d => [(k.sum + d.sum) % 256]) 1 [5] (fun _ _ c => c) []
      (flip_bit [0, 0, 0, 42, 0, 1, 9, 0, 2, 7, 8, 0, 1, 32] 13 0) =
      (.error .authentication_error, false) ∧
    check_seal (fun k d => [(k.sum + d.sum) % 256]) 1 [5]
      ⟨flip_bit [0, 0, 0, 42, 0, 1, 9, 0, 2, 7, 8, 0, 1, 32] 6 0⟩ = false ∧
    check_seal (fun k d => [(k.sum + d.sum) % 256]) 1 [4]
      ⟨[0, 0, 0, 42, 0, 1, 9, 0, 2, 7, 8, 0, 1, 32]⟩ = false := by
  have h := c4_seal_verification (fun k d => [(k.sum + d.sum) % 256]) (fun _ _ c => c) 1 [5] []
    [0, 0, 0, 42, 0, 1, 9, 0, 2, 7, 8, 0, 1, 32]
    ⟨[0, 0, 0, 42, 0, 1, 9, 0, 2, 7, 8, 0, 1, 32]⟩ (by rfl)
  have h2 := h.2.1 13 0 ⟨by decide, by decide⟩ (by decide) (h.1.mpr (by decide))
  have h3 := h.2.2.1 6 0 (Or.inl ⟨by decide, by decide⟩) (by decide) (by decide)
    (h.1.mpr (by decide))
  have h4 := h.2.2.2 [4] (by decide) (h.1.mpr (by decide))
  exact ⟨h.1.mpr (by decide), h2.2.1, h2.2.2, h3.2.1, h4.1⟩

theorem get8_shift (xs ys : List Nat) (n i : Nat) (h : n = xs.length + i) :
    get8 (xs ++ ys) n = get8 ys i := by
  subst h
  rw [get8, get8, List.getD_append_right xs ys 0 (xs.length + i) (Nat.le_add_right _ _),
    Nat.add_sub_cancel_left]

theorem get16_shift (xs ys : List Nat) (n i : Nat) (h : n = xs.length + i) :
    get16 (xs ++ ys) n = get16 ys i := by
  rw [get16, get16, get8_shift xs ys n i h, get8_shift xs ys (n + 1) (i + 1) (by omega)]

theorem get32_shift (xs ys : List Nat) (n i : Nat) (h : n = xs.length + i) :
    get32 (xs ++ ys) n = get32 ys i := by
  rw [get32, get32, get8_shift xs ys n i h, get8_shift xs ys (n + 1) (i + 1) (by omega),
    get8_shift xs ys (n + 2) (i + 2) (by omega), get8_shift xs ys (n + 3) (i + 3) (by omega)]

theorem drop_shift (xs ys : List Nat) (n i : Nat) (h : n = xs.length + i) :
    (xs ++ ys).drop n = ys.drop i := by
  subst h
  exact List.drop_append i

theorem take_shift (xs ys : List Nat) (n : Nat) (h : n = xs.length) :
    (xs ++ ys).take n = xs := by
  subst h
  exact List.take_left xs ys

theorem take_append4 (a b c d2 e : List Nat) (n : Nat)
    (h : n = a.length + (b.length + (c.length + d2.length))) :
    (a ++ (b ++ (c ++ (d2 ++ e)))).take n = a ++ (b ++ (c ++ d2)) := by
  subst h
  rw [List.take_append, List.take_append, List.take_append, take_shift d2 e _ rfl]

theorem get16_be16 (n : Nat) (rest : List Nat) (h : n < 65536) :
    get16 (be16 n ++ rest) 0 = n := by
  simp [be16, get16, get8]
  omega

theorem get32_be32 (n : Nat) (rest : List Nat) (h : n < 4294967296) :
    get32 (be32 n ++ rest) 0 = n := by
  simp [be32, get32, get8]
  omega

theorem adjust_tag_length (t : List Nat) (n : Nat) : (adjust_tag t n).length = n := by
  simp [adjust_tag]

theorem frame_core_length (s : Nat) (ivv ct tail : List Nat) :
    (frame_core s ivv ct tail).length = 8 + ivv.length + ct.length + tail.length := by
  simp [frame_core, be32, be16]
  omega

theorem frame_core_iv_size (s : Nat) (ivv ct tail : List Nat) (hiv : ivv.length < 65536) :
    iv_size (frame_core s ivv ct tail) = ivv.length := by
  rw [frame_core, iv_size, sizeof_sequence_number_type,
    get16_shift (be32 s) _ 4 0 (by simp [be32]), get16_be16 _ _ hiv]

theorem frame_core_ciphertext_size (s : Nat) (ivv ct tail : List Nat)
    (hiv : ivv.length < 65536) (hct : ct.length < 65536) :
    ciphertext_size (frame_core s ivv ct tail) = ct.length := by
  rw [ciphertext_size, frame_core_iv_size s ivv ct tail hiv, frame_core,
    get16_shift (be32 s) _ _ (2 + ivv.length)
      (by simp [be32, sizeof_sequence_number_type, sizeof_uint16]; omega),
    get16_shift (be16 ivv.length) _ _ ivv.length (by simp [be16]),
    get16_shift ivv _ _ 0 (by simp), get16_be16 _ _ hct]

theorem frame_core_iv (s : Nat) (ivv ct tail : List Nat) (hiv : ivv.length < 65536) :
    iv (frame_core s ivv ct tail) = ivv := by
  rw [iv, frame_core_iv_size s ivv ct tail hiv, frame_core,
    drop_shift (be32 s) _ _ 2 (by simp [be32, sizeof_sequence_number_type, sizeof_uint16]),
    drop_shift (be16 ivv.length) _ _ 0 (by simp [be16]), List.drop_zero,
    take_shift ivv _ _ rfl]

theorem frame_core_ciphertext (s : Nat) (ivv ct tail : List Nat)
    (hiv : ivv.length < 65536) (hct : ct.length < 65536) :
    ciphertext (frame_core s ivv ct tail) = ct := by
  rw [ciphertext, frame_core_iv_size s ivv ct tail hiv,
    frame_core_ciphertext_size s ivv ct tail hiv hct, frame_core,
    drop_shift (be32 s) _ _ (4 + ivv.length)
      (by simp [be32, sizeof_sequence_number_type, sizeof_uint16]; omega),
    drop_shift (be16 ivv.length) _ _ (2 + ivv.length) (by simp [be16]; omega),
    drop_shift ivv _ _ 2 (by omega),
    drop_shift (be16 ct.length) _ _ 0 (by simp [be16]), List.drop_zero,
    take_shift ct _ _ rfl]

theorem frame_core_hmac_size (s : Nat) (ivv ct tail : List Nat)
    (hiv : ivv.length < 65536) (hct : ct.length < 65536) :
    hmac_size (frame_core s ivv ct tail) = get16 tail 0 := by
  rw [hmac_size, frame_core_iv_size s ivv ct tail hiv,
    frame_core_ciphertext_size s ivv ct tail hiv hct, frame_core,
    get16_shift (be32 s) _ _ (4 + ivv.length + ct.length)
      (by simp [be32, sizeof_sequence_number_type, sizeof_uint16]; omega),
    get16_shift (be16 ivv.length) _ _ (2 + ivv.length + ct.length) (by simp [be16]; omega),
    get16_shift ivv _ _ (2 + ct.length) (by omega),
    get16_shift (be16 ct.length) _ _ ct.length (by simp [be16]),
    get16_shift ct _ _ 0 (by simp)]

theorem frame_core_hmac (s : Nat) (ivv ct tail : List Nat)
    (hiv : ivv.length < 65536) (hct : ct.length < 65536) :
    hmac (frame_core s ivv ct tail) = (tail.drop 2).take (get16 tail 0) := by
  rw [hmac, frame_core_iv_size s ivv ct tail hiv,
    frame_core_ciphertext_size s ivv ct tail hiv hct,
    frame_core_hmac_size s ivv ct tail hiv hct, frame_core,
    drop_shift (be32 s) _ _ (6 + ivv.length + ct.length)
      (by simp [be32, sizeof_sequence_number_type, sizeof_uint16]; omega),
    drop_shift (be16 ivv.length) _ _ (4 + ivv.length + ct.length) (by simp [be16]; omega),
    drop_shift ivv _ _ (4 + ct.length) (by omega),
    drop_shift (be16 ct.length) _ _ (2 + ct.length) (by simp [be16]; omega),
    drop_shift ct _ _ 2 (by omega)]

theorem frame_core_seal_region (s : Nat) (ivv ct tail : List Nat)
    (hiv : ivv.length < 65536) (hct : ct.length < 65536) :
    seal_region (frame_core s ivv ct tail) =
      be16 ivv.length ++ (ivv ++ (be16 ct.length ++ ct)) := by
  rw [seal_region, frame_core_iv_size s ivv ct tail hiv,
    frame_core_ciphertext_size s ivv ct tail hiv hct, frame_core,
    drop_shift (be32 s) _ _ 0 (by simp [be32, sizeof_sequence_number_type]), List.drop_zero,
    take_append4 _ _ _ _ _ _ (by simp [be16, sizeof_uint16]; omega)]

theorem frame_core_sequence_number (s : Nat) (ivv ct tail : List Nat)
    (hs : s < 4294967296) :
    sequence_number (frame_core s ivv ct tail) = s := by
  rw [sequence_number, frame_core, get32_be32 _ _ hs]

theorem frame_core_check_format (s : Nat) (ivv ct tg : List Nat) (hl : Nat)
    (hiv : ivv.length < 65536) (hct : ct.length < 65536) (hhl : hl < 65536)
    (htg : tg.length = hl) :
    check_format (frame_core s ivv ct (be16 hl ++ tg)) = true := by
  apply (check_format_eq_true_iff _).2
  simp only [iv_off, ciphertext_off, hmac_off, spec_min_body_length,
    sizeof_sequence_number_type, sizeof_uint16]
  rw [frame_core_iv_size s ivv ct _ hiv, frame_core_ciphertext_size s ivv ct _ hiv hct,
    frame_core_hmac_size s ivv ct _ hiv hct, frame_core_length, get16_be16 _ _ hhl]
  simp only [List.length_append, be16, List.length_cons, List.length_nil]
  omega

/-- C5. Writing a data frame (channel, sequence number, payload) with a cipher,
a digest and keys, then parsing the produced buffer, reading the sequence
number, passing check_seal with the same seal key and decrypting with the same
encryption key, recovers exactly the original channel number, sequence number
and payload, whenever the external cipher primitive satisfies
decrypt-after-encrypt identity and the lengths fit their 16/32-bit fields. -/
theorem c5_write_parse_round_trip
    (E D : List Nat → List Nat → List Nat → List Nat)
    (H : List Nat → List Nat → List Nat)
    (seq channel hmlen : Nat) (ivv payload seal_key enc_key : List Nat)
    (hseq : seq < 4294967296) (hch : channel < 65536)
    (hiv : ivv.length < 65536) (hml : hmlen < 65536)
    (hctlen : (E enc_key ivv (data_cleartext channel payload)).length < 65536)
    (hDE : D enc_key ivv (E enc_key ivv (data_cleartext channel payload)) =
      data_cleartext channel payload) :
    ∃ m : DataMessage,
      data_message_mk
          (raw_write_frame E (some H) hmlen seq ivv (data_cleartext channel payload)
            seal_key enc_key) = .ok m ∧
      sequence_number m.body = seq ∧
      check_seal H hmlen seal_key m = true ∧
      get16 (get_cleartext_raw D enc_key m) 0 = channel ∧
      (get_cleartext_raw D enc_key m).drop 2 = payload := by
  have hfrm : raw_write_frame E (some H) hmlen seq ivv (data_cleartext channel payload)
      seal_key enc_key =
      frame_core seq ivv (E enc_key ivv (data_cleartext channel payload))
        (be16 hmlen ++
          adjust_tag
            (H seal_key
              (be16 ivv.length ++
                (ivv ++
                  (be16 (E enc_key ivv (data_cleartext channel payload)).length ++
                    E enc_key ivv (data_cleartext channel payload)))))
            hmlen) := rfl
  set ct := E enc_key ivv (data_cleartext channel payload) with hct
  set tg := adjust_tag (H seal_key (be16 ivv.length ++ (ivv ++ (be16 ct.length ++ ct)))) hmlen
    with htg
  have hfmt : check_format (frame_core seq ivv ct (be16 hmlen ++ tg)) = true :=
    frame_core_check_format seq ivv ct tg hmlen hiv hctlen hml (adjust_tag_length _ _)
  refine ⟨⟨frame_core seq ivv ct (be16 hmlen ++ tg)⟩, ?_, ?_, ?_, ?_, ?_⟩
  · rw [hfrm]
    exact (mk_ok_iff _ _).2 ⟨hfmt, rfl⟩
  · exact frame_core_sequence_number seq ivv ct _ hseq
  · rw [check_seal, decide_eq_true_eq,
      show DataMessage.body ⟨frame_core seq ivv ct (be16 hmlen ++ tg)⟩ =
        frame_core seq ivv ct (be16 hmlen ++ tg) from rfl,
      frame_core_seal_region seq ivv ct _ hiv hctlen,
      frame_core_hmac seq ivv ct _ hiv hctlen,
      drop_shift (be16 hmlen) tg 2 0 (by simp [be16]), List.drop_zero,
      get16_be16 _ _ hml, htg, List.take_of_length_le (le_of_eq (adjust_tag_length _ _))]
  · rw [get_cleartext_raw,
      show DataMessage.body ⟨frame_core seq ivv ct (be16 hmlen ++ tg)⟩ =
        frame_core seq ivv ct (be16 hmlen ++ tg) from rfl,
      frame_core_iv seq ivv ct _ hiv, frame_core_ciphertext seq ivv ct _ hiv hctlen, hct,
      hDE, data_cleartext, get16_be16 _ _ hch]
  · rw [get_cleartext_raw,
      show DataMessage.body ⟨frame_core seq ivv ct (be16 hmlen ++ tg)⟩ =
        frame_core seq ivv ct (be16 hmlen ++ tg) from rfl,
      frame_core_iv seq ivv ct _ hiv, frame_core_ciphertext seq ivv ct _ hiv hctlen, hct,
      hDE, data_cleartext, drop_shift (be16 channel) payload 2 0 (by simp [be16]),
      List.drop_zero]

/-- Witness for C5: channel 7, sequence number 42, payload "PING" as bytes,
identity stand-ins for the cipher, a one-byte iv and a two-byte adjusted tag. -/
theorem c5_write_parse_round_trip_witness :
    ∃ m : DataMessage,
      data_message_mk
          (raw_write_frame (fun _ _ p => p) (some fun k d => [(k.sum + d.sum) % 256]) 2 42
            [9] (data_cleartext 7 [80, 73, 78, 71]) [5] [3]) = .ok m ∧
      sequence_number m.body = 42 ∧
      check_seal (fun k d => [(k.sum + d.sum) % 256]) 2 [5] m = true ∧
      get16 (get_cleartext_raw (fun _ _ c => c) [3] m) 0 = 7 ∧
      (get_cleartext_raw (fun _ _ c => c) [3] m).drop 2 = [80, 73, 78, 71] :=
  c5_write_parse_round_trip (fun _ _ p => p) (fun _ _ c => c)
    (fun k d => [(k.sum + d.sum) % 256]) 42 7 2 [9] [80, 73, 78, 71] [5] [3]
    (by decide) (by decide) (by decide) (by decide) (by decide) (by decide)

theorem raw_write_frame_length_pos (E : List Nat → List Nat → List Nat → List Nat)
    (H : Option (List Nat → List Nat → List Nat)) (hmlen seq : Nat)
    (ivv cleartext seal_key enc_key : List Nat) :
    0 < (raw_write_frame E H hmlen seq ivv cleartext seal_key enc_key).length := by
  cases H with
  | none =>
    rw [raw_write_frame]
    rw [frame_core_length]
    omega
  | some Hf =>
    rw [raw_write_frame]
    rw [frame_core_length]
    omega

/-- C6. For every writer input: the size-query mode (no destination buffer)
returns an exact byte count N without writing; a destination of exactly N bytes
succeeds and receives exactly the N frame bytes; any destination smaller than
N, in particular one of N - 1 bytes, fails with a capacity error and nothing is
written. -/
theorem c6_size_query_capacity (E : List Nat → List Nat → List Nat → List Nat)
    (H : Option (List Nat → List Nat → List Nat)) (hmlen seq : Nat)
    (ivv cleartext seal_key enc_key : List Nat) :
    write none E H hmlen seq ivv cleartext seal_key enc_key =
      .ok (.size_query (raw_write_frame E H hmlen seq ivv cleartext seal_key enc_key).length) ∧
    write (some (raw_write_frame E H hmlen seq ivv cleartext seal_key enc_key).length)
        E H hmlen seq ivv cleartext seal_key enc_key =
      .ok (.written (raw_write_frame E H hmlen seq ivv cleartext seal_key enc_key)) ∧
    (∀ c, c < (raw_write_frame E H hmlen seq ivv cleartext seal_key enc_key).length →
      write (some c) E H hmlen seq ivv cleartext seal_key enc_key =
        .error .capacity_error) ∧
    write (some ((raw_write_frame E H hmlen seq ivv cleartext seal_key enc_key).length - 1))
        E H hmlen seq ivv cleartext seal_key enc_key = .error .capacity_error := by
  have hw : ∀ c, write (some c) E H hmlen seq ivv cleartext seal_key enc_key =
      if c < (raw_write_frame E H hmlen seq ivv cleartext seal_key enc_key).length then
        .error .capacity_error
      else .ok (.written (raw_write_frame E H hmlen seq ivv cleartext seal_key enc_key)) :=
    fun _ => rfl
  refine ⟨rfl, ?_, ?_, ?_⟩
  · rw [hw, if_neg (lt_irrefl _)]
  · intro c hc
    rw [hw, if_pos hc]
  · rw [hw, if_pos]
    have := raw_write_frame_length_pos E H hmlen seq ivv cleartext seal_key enc_key
    omega

/-- Witness for C6: a concrete write of a one-byte cleartext with no digest has
size 11; a 0-byte destination is rejected with a capacity error. -/
theorem c6_size_query_capacity_witness :
    write none (fun _ _ p => p) none 0 1 [] [2] [] [] = .ok (.size_query 11) ∧
    write (some 0) (fun _ _ p => p) none 0 1 [] [2] [] [] = .error .capacity_error := by
  have h := c6_size_query_capacity (fun _ _ p => p) none 0 1 [] [2] [] []
  exact ⟨by rw [h.1]; rfl, h.2.2.1 0 (by decide)⟩

theorem split_records_length (r k : Nat) (buf : List Nat) :
    (split_records r k buf).length = k := by
  induction k generalizing buf with
  | zero => rfl
  | succ k ih => simp [split_records, ih]

theorem split_records_flatten (r k : Nat) (buf : List Nat)
    (hlen : buf.length = k * r) : (split_records r k buf).flatten = buf := by
  induction k generalizing buf with
  | zero =>
    rw [split_records]
    exact (List.eq_nil_of_length_eq_zero (by rw [hlen, Nat.zero_mul])).symm
  | succ k ih =>
    rw [split_records, List.flatten_cons,
      ih (buf.drop r) (by rw [List.length_drop, hlen, Nat.succ_mul, Nat.add_sub_cancel]),
      List.take_append_drop]

theorem split_records_mem_length (r k : Nat) (buf : List Nat)
    (hlen : buf.length = k * r) :
    ∀ d ∈ split_records r k buf, d.length = r := by
  induction k generalizing buf with
  | zero =>
    rw [split_records]
    intro d hd
    cases hd
  | succ k ih =>
    intro d hd
    rw [split_records] at hd
    rcases List.mem_cons.1 hd with rfl | hd2
    · rw [List.length_take, hlen, Nat.succ_mul]
      exact Nat.min_eq_left (Nat.le_add_left r (k * r))
    · exact ih (buf.drop r)
        (by rw [List.length_drop, hlen, Nat.succ_mul, Nat.add_sub_cancel]) d hd2

/-- C7. parse_hash_list succeeds exactly when the buffer length is a multiple
of the fixed digest record size, returning length / record_size digests of that
size whose concatenation, in order, is the whole buffer; any nonzero remainder
is an error, never a silent truncation; and parse_contact_map obeys the same
exact-multiple rule over its fixed (digest, endpoint) record size. -/
theorem c7_exact_record_multiples (r dsz esz : Nat) (buf cbuf : List Nat) :
    ((∃ l, parse_hash_list r buf = .ok l) ↔ buf.length % r = 0) ∧
    (∀ l, parse_hash_list r buf = .ok l →
      l.length = buf.length / r ∧
      l.flatten = buf ∧
      ∀ d ∈ l, d.length = r) ∧
    (buf.length % r ≠ 0 → parse_hash_list r buf = .error .format_error) ∧
    ((∃ l2, parse_contact_map dsz esz cbuf = .ok l2) ↔
      cbuf.length % (dsz + esz) = 0) ∧
    (cbuf.length % (dsz + esz) ≠ 0 →
      parse_contact_map dsz esz cbuf = .error .format_error) := by
  have hml : ∀ n m : Nat, n % m = 0 → n = (n / m) * m := by
    intro n m h
    rw [Nat.div_mul_cancel (Nat.dvd_of_mod_eq_zero h)]
  refine ⟨⟨?_, ?_⟩, ?_, ?_, ⟨?_, ?_⟩, ?_⟩
  · rintro ⟨l, hl⟩
    rw [parse_hash_list] at hl
    by_cases h : buf.length % r = 0
    · exact h
    · rw [if_neg (by simpa using h)] at hl
      cases hl
  · intro h
    exact ⟨_, by rw [parse_hash_list, if_pos (by simpa using h)]⟩
  · intro l hl
    rw [parse_hash_list] at hl
    by_cases h : buf.length % r = 0
    · rw [if_pos (by simpa using h)] at hl
      cases hl
      exact ⟨split_records_length _ _ _,
        split_records_flatten _ _ _ (hml _ _ h),
        split_records_mem_length _ _ _ (hml _ _ h)⟩
    · rw [if_neg (by simpa using h)] at hl
      cases hl
  · intro h
    rw [parse_hash_list, if_neg (by simpa using h)]
  · rintro ⟨l2, hl⟩
    rw [parse_contact_map] at hl
    by_cases h : cbuf.length % (dsz + esz) = 0
    · exact h
    · rw [if_neg (by simpa using h)] at hl
      cases hl
  · intro h
    exact ⟨_, by rw [parse_contact_map, if_pos (by simpa using h)]⟩
  · intro h
    rw [parse_contact_map, if_neg (by simpa using h)]

/-- Witness for C7: with the spec's 32-byte digests, a 50-byte buffer is
rejected (50 is not a multiple of 32) while a 64-byte buffer yields exactly two
32-byte digests; a 49-byte buffer of (26 + 6)-byte contact records is rejected. -/
theorem c7_exact_record_multiples_witness :
    parse_hash_list 32 (List.replicate 50 0) = .error .format_error ∧
    (∀ l, parse_hash_list 32 (List.replicate 64 0) = .ok l →
      l.length = 2 ∧ ∀ d ∈ l, d.length = 32) ∧
    parse_contact_map 26 6 (List.replicate 49 0) = .error .format_error := by
  have h50 := (c7_exact_record_multiples 32 26 6 (List.replicate 50 0)
    (List.replicate 49 0)).2.2.1 (by decide)
  have h64 := (c7_exact_record_multiples 32 26 6 (List.replicate 64 0)
    (List.replicate 49 0)).2.1
  have h49 := (c7_exact_record_multiples 32 26 6 (List.replicate 64 0)
    (List.replicate 49 0)).2.2.2.2 (by decide)
  refine ⟨h50, ?_, h49⟩
  intro l hl
  obtain ⟨hlen, -, hmem⟩ := h64 l hl
  exact ⟨by rw [hlen]; decide, hmem⟩

/-- C8. When the requested digest algorithm is unavailable, the pbkdf2
operation substitutes the weaker default digest SHA1 only when the strict-mode
flag is not set; when the strict-mode flag is set it fails with a hard
algorithm-unavailable error and never silently downgrades; an available
algorithm is used as requested. -/
theorem c8_strict_mode_no_fallback (avail : MDAlg → Bool) (password salt : List Nat)
    (outbuflen : Nat) (md : MDAlg) (iter : Nat) :
    (avail md = false →
      pbkdf2 true avail password salt outbuflen md iter = .error .algorithm_unavailable) ∧
    (avail md = false →
      pbkdf2 false avail password salt outbuflen md iter =
        .ok (outbuflen, pbkdf2_bytes .sha1 password salt iter outbuflen)) ∧
    (avail md = true → ∀ strict,
      pbkdf2 strict avail password salt outbuflen md iter =
        .ok (outbuflen, pbkdf2_bytes md password salt iter outbuflen)) := by
  refine ⟨?_, ?_, ?_⟩
  · intro h
    rw [pbkdf2, if_neg (by simp [h]), if_pos rfl]
  · intro h
    rw [pbkdf2, if_neg (by simp [h]), if_neg (by simp)]
  · intro h strict
    rw [pbkdf2, if_pos (by simp [h])]

/-- Witness for C8: in a build providing only SHA256, a request for MD5 fails
hard in strict mode, falls back to SHA1 otherwise, and SHA256 itself is used
as requested. -/
theorem c8_strict_mode_no_fallback_witness :
    pbkdf2 true (fun a => a == MDAlg.sha256) [1] [2] 20 MDAlg.md5 1000 =
      .error .algorithm_unavailable ∧
    pbkdf2 false (fun a => a == MDAlg.sha256) [1] [2] 20 MDAlg.md5 1000 =
      .ok (20, pbkdf2_bytes .sha1 [1] [2] 1000 20) ∧
    pbkdf2 true (fun a => a == MDAlg.sha256) [1] [2] 32 MDAlg.sha256 1000 =
      .ok (32, pbkdf2_bytes .sha256 [1] [2] 1000 32) := by
  have h1 := c8_strict_mode_no_fallback (fun a => a == MDAlg.sha256) [1] [2] 20 MDAlg.md5 1000
  have h2 := c8_strict_mode_no_fallback (fun a => a == MDAlg.sha256) [1] [2] 32
    MDAlg.sha256 1000
  exact ⟨h1.1 (by decide), h1.2.1 (by decide), h2.2.2 (by decide) true⟩

/-- C9. The templated vector overload of get_cleartext first performs a size
query with a NULL buffer to allocate a vector of the expected size, then
decrypts into it and resizes the vector to the count of bytes actually
deciphered; the returned vector length equals the deciphered byte count, which
is at most the size-query result. -/
theorem c9_cleartext_vec_length (D : List Nat → List Nat → List Nat → List Nat)
    (enc_key : List Nat) (m : DataMessage) :
    ∃ s n v,
      get_cleartext_call D enc_key m none = .ok (s, []) ∧
      get_cleartext_call D enc_key m (some s) = .ok (n, get_cleartext_raw D enc_key m) ∧
      get_cleartext_vec D enc_key m = .ok v ∧
      v.length = n ∧ n ≤ s := by
  have hq : get_cleartext_call D enc_key m none =
      .ok ((get_cleartext_raw D enc_key m).length, []) := rfl
  have hw : get_cleartext_call D enc_key m (some (get_cleartext_raw D enc_key m).length) =
      .ok ((get_cleartext_raw D enc_key m).length, get_cleartext_raw D enc_key m) := by
    show (if (get_cleartext_raw D enc_key m).length < (get_cleartext_raw D enc_key m).length
        then Except.error FrameError.capacity_error
        else .ok ((get_cleartext_raw D enc_key m).length, get_cleartext_raw D enc_key m)) = _
    rw [if_neg (lt_irrefl _)]
  refine ⟨(get_cleartext_raw D enc_key m).length, (get_cleartext_raw D enc_key m).length,
    get_cleartext_raw D enc_key m, hq, hw, ?_, rfl, le_refl _⟩
  rw [get_cleartext_vec, hq]
  simp [hw]

/-- C10. Whenever the templated vector pbkdf2 returns a vector, its length
equals message_digest_size(md), the raw digest size of the requested algorithm:
the vector is sized to the digest size and never resized afterward, regardless
of the count reported by the underlying call. -/
theorem c10_pbkdf2_vec_length (strict : Bool) (avail : MDAlg → Bool)
    (password salt : List Nat) (md : MDAlg) (iter : Nat) (v : List Nat)
    (h : pbkdf2_vec strict avail password salt md iter = .ok v) :
    v.length = message_digest_size md := by
  rw [pbkdf2_vec] at h
  cases hc : pbkdf2 strict avail password salt (message_digest_size md) md iter with
  | error e =>
    rw [hc] at h
    cases h
  | ok p =>
    rw [hc] at h
    cases p with
    | mk n bytes =>
      cases h
      simp only [List.length_take, List.length_append, List.length_replicate]
      omega

/-- Witness for C10: with SHA1 available and requested, the vector returned has
exactly the 20-byte SHA1 digest size. -/
theorem c10_pbkdf2_vec_length_witness :
    ∃ v, pbkdf2_vec false (fun _ => true) [] [] MDAlg.sha1 1 = .ok v ∧ v.length = 20 := by
  refine ⟨_, rfl, ?_⟩
  exact c10_pbkdf2_vec_length false (fun _ => true) [] [] MDAlg.sha1 1 _ rfl

end Fscp
